import Mathlib

/-!
Verification of the client-side maintenance coordinator of a sharded
document store (`binprot/client_db.go`).

The Go file is shallowly embedded as pure Lean functions.  External
collaborators (the per-shard store `db.DB`, the wire client, the schema
cache refresh) are modelled as environments: records of functions saying,
for each call the Go code can make, whether that call succeeds or fails
and what it returns.  Each maintenance operation is translated into a
function from such an environment to the list of externally visible
effects (events) it performs plus its returned error, following the Go
control flow line by line.
-/

namespace Tiedot

/-- Errors returned by external calls and by the operations (Go `error`). -/
abbrev Err := String

/-- Externally visible effects performed by the client on the shard stores
and on the wire.  One constructor per external mutating call made by
`client_db.go`. -/
inductive Ev : Type where
  /-- Models `db.OpenDB(workspace/i)` succeeded for shard `i`. -/
  | openShard : Nat → Ev
  /-- Models `clientDB.Close()` succeeded for shard `i`. -/
  | closeShard : Nat → Ev
  /-- Models `clientDB.Create(name)` on shard `i`. -/
  | createCol : Nat → String → Ev
  /-- Models `clientDB.Use(col).BPIndex(path)` on shard `i`. -/
  | bpIndexEv : Nat → String → List String → Ev
  /-- Models `clientDB.Drop(name)` on shard `i`. -/
  | dropCol : Nat → String → Ev
  /-- Models `clientDB.Rename(old, new)` on shard `i`. -/
  | renameCol : Nat → String → String → Ev
  /-- Models `client.reloadServer()` succeeded. -/
  | reloadEv : Ev
  /-- Models `client.insertRecovery(tmpColID, docID, doc)`. -/
  | insertRec : Nat → Nat → Ev
  /-- Models `client.sendCmd(shard, false, C_HT_PUT, htID, key, docID)`:
  a hash-table put routed to `shard` carrying routing identity `htID`,
  hashed value `key` and document id `docID`. -/
  | htPut : Nat → Int → Nat → Nat → Ev
  /-- Models `clientDB.Use(col).Unindex(path)` on shard `i`. -/
  | removeIdx : Nat → String → List String → Ev
  deriving DecidableEq

/-! Part: Uniform shard application (`forAllDBsDo`, client_db.go lines 17-29)

State-transformer model.  The per-shard workspace state has some type `α`
(for `Truncate` it would be the shard's content of the collection, etc.);
the whole workspace is `Nat → α`.  The environment says whether
`db.OpenDB`, the supplied action `fun`, and `Close` succeed on each shard,
and what the action does to the shard's state when it succeeds. -/

/-- Environment for one `forAllDBsDo` run: per-shard outcomes of
`db.OpenDB` (line 19), of the supplied action `fun` (line 22) and of
`Close` (line 24), plus the state change the action applies when it
succeeds. -/
structure ShardEnv (α : Type) where
  openErr : Nat → Option Err
  actErr : Nat → Option Err
  act : Nat → α → α
  closeErr : Nat → Option Err

/-- One iteration of the `forAllDBsDo` loop body on shard `i`:
open, apply the action, close; the state change happens only when open
and the action both succeed (a failing `Close` happens after the action
took effect, so the change is kept). -/
def shardStep {α : Type} (env : ShardEnv α) (i : Nat) (st : Nat → α) :
    (Nat → α) × Option Err :=
  match env.openErr i with
  | some e => (st, some e)
  | none =>
    match env.actErr i with
    | some e => (st, some e)
    | none =>
      let st' := fun j => if j = i then env.act i (st j) else st j
      match env.closeErr i with
      | some e => (st', some e)
      | none => (st', none)

/-- The loop `for i := 0; i < nProcs; i++` of `forAllDBsDo`, with `rem`
iterations left starting at shard `i`; returns the final workspace state
and the first error, aborting immediately on failure. -/
def forAllGo {α : Type} (env : ShardEnv α) (i : Nat) (st : Nat → α) :
    Nat → (Nat → α) × Option Err
  | 0 => (st, none)
  | rem + 1 =>
    match shardStep env i st with
    | (st', some e) => (st', some e)
    | (st', none) => forAllGo env (i + 1) st' rem

/-- Models `forAllDBsDo` (client_db.go lines 17-29): apply the per-shard step to
shards `0, 1, …, n-1` in order, aborting on the first error. -/
def forAllDBsDo {α : Type} (env : ShardEnv α) (n : Nat) (st : Nat → α) :
    (Nat → α) × Option Err :=
  forAllGo env 0 st n

/-- Shard `i` fails (in open, action or close) under `env`. -/
def shardFails {α : Type} (env : ShardEnv α) (i : Nat) : Bool :=
  (env.openErr i).isSome || (env.actErr i).isSome || (env.closeErr i).isSome

/-- The first error shard `i` produces, in the order the Go code checks
them: open, then the action, then close. -/
def shardErr {α : Type} (env : ShardEnv α) (i : Nat) : Option Err :=
  ((env.openErr i).orElse fun _ => (env.actErr i).orElse fun _ => env.closeErr i)

/-- Index of the first failing shard among `i, …, i+rem-1`, if any. -/
def firstFailGo {α : Type} (env : ShardEnv α) (i : Nat) : Nat → Option Nat
  | 0 => none
  | rem + 1 => if shardFails env i then some i else firstFailGo env (i + 1) rem

/-- Index of the first failing shard among `0, …, n-1`, if any. -/
def firstFail {α : Type} (env : ShardEnv α) (n : Nat) : Option Nat :=
  firstFailGo env 0 n

theorem firstFailGo_none {α : Type} (env : ShardEnv α) :
    ∀ (rem i : Nat), firstFailGo env i rem = none →
      ∀ j, i ≤ j → j < i + rem → shardFails env j = false := by
  intro rem
  induction rem with
  | zero => intro i _ j h1 h2; omega
  | succ rem ih =>
    intro i h j h1 h2
    rw [firstFailGo] at h
    by_cases hf : shardFails env i
    · simp [hf] at h
    · rcases Nat.eq_or_lt_of_le h1 with rfl | hlt
      · exact Bool.eq_false_iff.mpr hf
      · rw [if_neg hf] at h
        exact ih (i + 1) h j hlt (by omega)

theorem firstFailGo_some {α : Type} (env : ShardEnv α) :
    ∀ (rem i k : Nat), firstFailGo env i rem = some k →
      i ≤ k ∧ k < i + rem ∧ shardFails env k = true ∧
        ∀ j, i ≤ j → j < k → shardFails env j = false := by
  intro rem
  induction rem with
  | zero => intro i k h; simp [firstFailGo] at h
  | succ rem ih =>
    intro i k h
    rw [firstFailGo] at h
    by_cases hf : shardFails env i
    · simp only [hf, if_pos, Option.some.injEq] at h
      subst h
      exact ⟨Nat.le_refl _, by omega, hf, fun j h1 h2 => by omega⟩
    · rw [if_neg hf] at h
      obtain ⟨h1, h2, h3, h4⟩ := ih (i + 1) k h
      refine ⟨by omega, by omega, h3, fun j hj1 hj2 => ?_⟩
      rcases Nat.eq_or_lt_of_le hj1 with rfl | hlt
      · exact Bool.eq_false_iff.mpr hf
      · exact h4 j hlt hj2

theorem forAllGo_noFail {α : Type} (env : ShardEnv α) :
    ∀ (rem i : Nat) (st : Nat → α),
      (∀ j, i ≤ j → j < i + rem → shardFails env j = false) →
      (forAllGo env i st rem).2 = none ∧
        ∀ j, (forAllGo env i st rem).1 j =
          if i ≤ j ∧ j < i + rem then env.act j (st j) else st j := by
  intro rem
  induction rem with
  | zero =>
    intro i st _
    refine ⟨rfl, fun j => ?_⟩
    simp only [forAllGo]
    rw [if_neg (show ¬(i ≤ j ∧ j < i + 0) by omega)]
  | succ rem ih =>
    intro i st h
    have hfi : shardFails env i = false := h i (Nat.le_refl i) (by omega)
    cases hoe : env.openErr i with
    | some e => rw [shardFails, hoe] at hfi; simp at hfi
    | none =>
    cases hae : env.actErr i with
    | some e => rw [shardFails, hoe, hae] at hfi; simp at hfi
    | none =>
    cases hce : env.closeErr i with
    | some e => rw [shardFails, hoe, hae, hce] at hfi; simp at hfi
    | none =>
      have hstep : shardStep env i st =
          ((fun j => if j = i then env.act i (st j) else st j), none) := by
        simp [shardStep, hoe, hae, hce]
      have hrec := ih (i + 1) (fun j => if j = i then env.act i (st j) else st j)
        (fun j hj1 hj2 => h j (by omega) (by omega))
      have hgo : forAllGo env i st (rem + 1) =
          forAllGo env (i + 1) (fun j => if j = i then env.act i (st j) else st j) rem := by
        rw [forAllGo, hstep]
      refine ⟨by rw [hgo]; exact hrec.1, fun j => ?_⟩
      rw [hgo, hrec.2 j]
      by_cases hji : j = i
      · subst hji
        have c1 : ¬(j + 1 ≤ j ∧ j < j + 1 + rem) := by omega
        have c2 : j ≤ j ∧ j < j + (rem + 1) := by omega
        simp [c1, c2]
      · simp only [if_neg hji]
        have : (i + 1 ≤ j ∧ j < i + 1 + rem) ↔ (i ≤ j ∧ j < i + (rem + 1)) := by
          omega
        rw [if_congr this rfl rfl]

theorem forAllGo_fail {α : Type} (env : ShardEnv α) :
    ∀ (rem i k : Nat) (st : Nat → α),
      i ≤ k → k < i + rem → shardFails env k = true →
      (∀ j, i ≤ j → j < k → shardFails env j = false) →
      (forAllGo env i st rem).2 = shardErr env k ∧
        ∀ j, (forAllGo env i st rem).1 j =
          if i ≤ j ∧ j < k then env.act j (st j)
          else if j = k ∧ env.openErr k = none ∧ env.actErr k = none then
            env.act k (st j)
          else st j := by
  intro rem
  induction rem with
  | zero => intro i k st h1 h2; omega
  | succ rem ih =>
    intro i k st h1 h2 hk hbefore
    rcases Nat.eq_or_lt_of_le h1 with rfl | hik
    · -- the first shard of the remaining range is the failing one
      cases hoe : env.openErr i with
      | some e =>
        have hstep : shardStep env i st = (st, some e) := by
          simp [shardStep, hoe]
        have hgo : forAllGo env i st (rem + 1) = (st, some e) := by
          rw [forAllGo, hstep]
        refine ⟨by rw [hgo]; simp [shardErr, hoe], fun j => ?_⟩
        rw [hgo]
        have c1 : ¬(i ≤ j ∧ j < i) := by omega
        simp [c1, hoe]
      | none =>
        cases hae : env.actErr i with
        | some e =>
          have hstep : shardStep env i st = (st, some e) := by
            simp [shardStep, hoe, hae]
          have hgo : forAllGo env i st (rem + 1) = (st, some e) := by
            rw [forAllGo, hstep]
          refine ⟨by rw [hgo]; simp [shardErr, hoe, hae], fun j => ?_⟩
          rw [hgo]
          have c1 : ¬(i ≤ j ∧ j < i) := by omega
          simp [c1, hae]
        | none =>
          cases hce : env.closeErr i with
          | some e =>
            have hstep : shardStep env i st =
                ((fun j => if j = i then env.act i (st j) else st j), some e) := by
              simp [shardStep, hoe, hae, hce]
            have hgo : forAllGo env i st (rem + 1) =
                ((fun j => if j = i then env.act i (st j) else st j), some e) := by
              rw [forAllGo, hstep]
            refine ⟨by rw [hgo]; simp [shardErr, hoe, hae, hce], fun j => ?_⟩
            rw [hgo]
            have c1 : ¬(i ≤ j ∧ j < i) := by omega
            by_cases hji : j = i
            · subst hji; simp [c1, hoe, hae]
            · simp [c1, hji]
          | none =>
            rw [shardFails, hoe, hae, hce] at hk
            simp at hk
    · -- shard i succeeds, recurse
      have hfi : shardFails env i = false := hbefore i (Nat.le_refl i) hik
      cases hoe : env.openErr i with
      | some e => rw [shardFails, hoe] at hfi; simp at hfi
      | none =>
      cases hae : env.actErr i with
      | some e => rw [shardFails, hoe, hae] at hfi; simp at hfi
      | none =>
      cases hce : env.closeErr i with
      | some e => rw [shardFails, hoe, hae, hce] at hfi; simp at hfi
      | none =>
        have hstep : shardStep env i st =
            ((fun j => if j = i then env.act i (st j) else st j), none) := by
          simp [shardStep, hoe, hae, hce]
        have hgo : forAllGo env i st (rem + 1) =
            forAllGo env (i + 1) (fun j => if j = i then env.act i (st j) else st j) rem := by
          rw [forAllGo, hstep]
        have hrec := ih (i + 1) k (fun j => if j = i then env.act i (st j) else st j)
          (by omega) (by omega) hk (fun j hj1 hj2 => hbefore j (Nat.le_of_succ_le hj1) hj2)
        refine ⟨by rw [hgo]; exact hrec.1, fun j => ?_⟩
        rw [hgo, hrec.2 j]
        by_cases hji : j = i
        · subst hji
          have c1 : ¬(j + 1 ≤ j) := by omega
          have c2 : (j ≤ j ∧ j < k) := ⟨Nat.le_refl j, hik⟩
          have c3 : ¬(j = k) := by omega
          simp [c1, c2, c3]
        · simp only [if_neg hji]
          have : (i + 1 ≤ j ∧ j < k) ↔ (i ≤ j ∧ j < k) := by omega
          rw [if_congr this rfl rfl]

theorem shardErr_isSome_of_fails {α : Type} (env : ShardEnv α) (k : Nat)
    (h : shardFails env k = true) : (shardErr env k).isSome = true := by
  rw [shardFails] at h
  rw [shardErr]
  cases hoe : env.openErr k with
  | some e => simp [Option.orElse]
  | none =>
    cases hae : env.actErr k with
    | some e => simp [Option.orElse, hoe]
    | none =>
      cases hce : env.closeErr k with
      | some e => simp [Option.orElse, hoe, hae]
      | none => rw [hoe, hae, hce] at h; simp at h

/-- C1 (amended).  Uniform shard application (`forAllDBsDo`, used by
`Create`, `Rename`, `Truncate` and Scrub's create and swap phases)
processes shards strictly sequentially in index order `0..N-1`, each
shard opened, acted upon and closed before the next is touched, and
returns the first error from open, action, or close immediately: when no
shard fails every shard receives the applied change; when shard `k` is
the first failing shard, the returned error is shard `k`'s own first
error (open, then action, then close — so the error identifies the
failing shard), shards before `k` retain the applied change, shards
after `k` are untouched, and shard `k` itself is untouched when open or
the action failed but retains the applied change when `Close` failed
(this last point is where the original claim's "shards at/after the
failure point are untouched" breaks, see the counterexample). -/
theorem C1_forAllDBsDo_characterization {α : Type} (env : ShardEnv α) (n : Nat)
    (st : Nat → α) :
    (firstFail env n = none →
      (forAllDBsDo env n st).2 = none ∧
        ∀ j, (forAllDBsDo env n st).1 j = if j < n then env.act j (st j) else st j) ∧
    (∀ k, firstFail env n = some k →
      k < n ∧ shardFails env k = true ∧ (∀ j, j < k → shardFails env j = false) ∧
      (forAllDBsDo env n st).2 = shardErr env k ∧ (shardErr env k).isSome = true ∧
      ∀ j, (forAllDBsDo env n st).1 j =
        if j < k then env.act j (st j)
        else if j = k ∧ env.openErr k = none ∧ env.actErr k = none then
          env.act k (st j)
        else st j) := by
  constructor
  · intro h
    have hnone := firstFailGo_none env n 0 h
    have hmain := forAllGo_noFail env n 0 st (fun j h1 h2 => hnone j h1 h2)
    refine ⟨hmain.1, fun j => ?_⟩
    have hj := hmain.2 j
    rw [show forAllDBsDo env n st = forAllGo env 0 st n from rfl, hj]
    have : (0 ≤ j ∧ j < 0 + n) ↔ j < n := by omega
    rw [if_congr this rfl rfl]
  · intro k hk
    obtain ⟨-, h2, h3, h4⟩ := firstFailGo_some env n 0 k hk
    have hmain := forAllGo_fail env n 0 k st (Nat.zero_le k) h2 h3 h4
    refine ⟨by omega, h3, fun j hj => h4 j (Nat.zero_le j) hj, hmain.1,
      shardErr_isSome_of_fails env k h3, fun j => ?_⟩
    have hj := hmain.2 j
    rw [show forAllDBsDo env n st = forAllGo env 0 st n from rfl, hj]
    have : (0 ≤ j ∧ j < k) ↔ j < k := by omega
    rw [if_congr this rfl rfl]

/-! Part: Event-trace model of the composite operations

`Scrub`, `Index` and `Unindex` are modelled as functions from an
environment (the outcome of every external call they can make) to the
list of externally visible events they perform plus the returned error.
Events accumulate in program order; an event is recorded only when the
corresponding external call succeeded. -/

/-- Traced version of the `forAllDBsDo` loop (client_db.go lines 17-29):
shards `i, …, i+rem-1` in order; per shard, open (no event on failure),
run the action `act` (which yields its own events and possibly an
error), close.  Aborts on the first error, keeping the events that
happened before it; a failing action or close leaves the shard's earlier
events (its effects) in place and never emits `closeShard`. -/
def forAllTrGo (openE closeE : Nat → Option Err) (act : Nat → List Ev × Option Err)
    (i : Nat) : Nat → List Ev × Option Err
  | 0 => ([], none)
  | rem + 1 =>
    match openE i with
    | some e => ([], some e)
    | none =>
      match act i with
      | (evs, some e) => (Ev.openShard i :: evs, some e)
      | (evs, none) =>
        match closeE i with
        | some e => (Ev.openShard i :: evs, some e)
        | none =>
          let rest := forAllTrGo openE closeE act (i + 1) rem
          (Ev.openShard i :: evs ++ (Ev.closeShard i :: rest.1), rest.2)

/-- Traced `forAllDBsDo` over shards `0, …, n-1`. -/
def forAllTr (openE closeE : Nat → Option Err) (act : Nat → List Ev × Option Err)
    (n : Nat) : List Ev × Option Err :=
  forAllTrGo openE closeE act 0 n

/-- Output of the paginated document scan shared by `Scrub` (lines
115-125) and `Index` (lines 209-226): the events emitted, the pages
fetched (in fetch order), the `(page, docID)` pairs iterated (in
iteration order) and the first error. -/
structure ScanOut where
  evs : List Ev
  fetched : List Nat
  visited : List (Nat × Nat)
  err : Option Err
  deriving DecidableEq

/-- Inner loop `for docID, doc := range docs`: process each document of
the fetched page with `perDoc`, aborting on its first error. -/
def docLoop {Doc : Type} (perDoc : Nat → Doc → List Ev × Option Err) (page : Nat) :
    List (Nat × Doc) → List Ev × List (Nat × Nat) × Option Err
  | [] => ([], [], none)
  | (docID, doc) :: rest =>
    match perDoc docID doc with
    | (evs, some e) => (evs, [(page, docID)], some e)
    | (evs, none) =>
      let r := docLoop perDoc page rest
      (evs ++ r.1, (page, docID) :: r.2.1, r.2.2)

/-- Outer loop `for page := 0; page < total; page++`: fetch each page
with `getDocPage` (modelled by `pageRes`) and run the inner document
loop, aborting on the first fetch or per-document error. -/
def pageLoopGo {Doc : Type} (pageRes : Nat → Except Err (List (Nat × Doc)))
    (perDoc : Nat → Doc → List Ev × Option Err) (page : Nat) : Nat → ScanOut
  | 0 => ⟨[], [], [], none⟩
  | rem + 1 =>
    match pageRes page with
    | .error e => ⟨[], [page], [], some e⟩
    | .ok docs =>
      match docLoop perDoc page docs with
      | (evs, vis, some e) => ⟨evs, [page], vis, some e⟩
      | (evs, vis, none) =>
        let r := pageLoopGo pageRes perDoc (page + 1) rem
        ⟨evs ++ r.evs, page :: r.fetched, vis ++ r.visited, r.err⟩

/-- The whole paginated scan over pages `0, …, total-1`. -/
def pagedScan {Doc : Type} (pageRes : Nat → Except Err (List (Nat × Doc)))
    (perDoc : Nat → Doc → List Ev × Option Err) (total : Nat) : ScanOut :=
  pageLoopGo pageRes perDoc 0 total

/-- Models `total := docCount/10000 + 1` (client_db.go lines 114 and 208,
integer division). -/
def totalPages (docCount : Nat) : Nat :=
  docCount / 10000 + 1

/-! Part: Scrub (client_db.go lines 74-142) -/

/-- Environment for one `Scrub` run: outcomes of every external call it
can make.  `Doc` is the (opaque) type of document values.  The create
phase and the swap phase each open and close every shard separately, so
they get separate open/close outcomes. -/
structure ScrubEnv (Doc : Type) where
  /-- Models `client.nProcs`, the shard count. -/
  nProcs : Nat
  /-- whether `colName` is present in `client.schema.colNameLookup`
  (line 78). -/
  colExists : Bool
  /-- snapshot of `client.schema.indexPaths[colID]` (lines 82-84). -/
  indexPaths : List (List String)
  /-- Models `db.OpenDB` outcome per shard in the create phase. -/
  open1Err : Nat → Option Err
  /-- Models `Close` outcome per shard in the create phase. -/
  close1Err : Nat → Option Err
  /-- Models `clientDB.Create(tmpColName)` outcome per shard (line 88). -/
  createErr : Nat → Option Err
  /-- Models `Use(tmpColName).BPIndex(path)` outcome per shard and path
  (line 93). -/
  bpIdxErr : Nat → List String → Option Err
  /-- first `client.reloadServer()` outcome (line 102). -/
  reload1Err : Option Err
  /-- Models `client.schema.colNameLookup[tmpColName]` after the reload
  (line 105): `none` models `!exists`. -/
  tmpColID : Option Nat
  /-- Models `client.approxDocCount(colName)` outcome (line 110). -/
  docCountRes : Except Err Nat
  /-- Models `client.getDocPage(colName, page, total, true)` outcome
  (line 116). -/
  pageRes : Nat → Except Err (List (Nat × Doc))
  /-- Models `client.insertRecovery(tmpColID, docID, doc)` outcome (line 121). -/
  insertErr : Nat → Doc → Option Err
  /-- Models `db.OpenDB` outcome per shard in the swap phase. -/
  open2Err : Nat → Option Err
  /-- Models `Close` outcome per shard in the swap phase. -/
  close2Err : Nat → Option Err
  /-- Models `clientDB.Drop(colName)` outcome per shard (line 128). -/
  dropErr : Nat → Option Err
  /-- Models `clientDB.Rename(tmpColName, colName)` outcome per shard
  (line 130). -/
  renameErr : Nat → Option Err
  /-- second `client.reloadServer()` outcome (line 137). -/
  reload2Err : Option Err

/-- Models `tmpColName := fmt.Sprintf("scrub-%s-%d", colName, ts)` (line 86),
with `ts` the nanosecond timestamp. -/
def scrubTmpName (colName : String) (ts : Nat) : String :=
  "scrub-" ++ colName ++ "-" ++ toString ts

/-- Recreate all snapshotted indexes on the temporary collection on
shard `i` (lines 92-96), aborting on the first failure. -/
def bpIndexAll {Doc : Type} (env : ScrubEnv Doc) (i : Nat) (tmp : String) :
    List (List String) → List Ev × Option Err
  | [] => ([], none)
  | p :: ps =>
    match env.bpIdxErr i p with
    | some e => ([], some e)
    | none =>
      let rest := bpIndexAll env i tmp ps
      (Ev.bpIndexEv i tmp p :: rest.1, rest.2)

/-- Per-shard action of Scrub's create phase (lines 87-98): create the
temporary collection, then recreate every snapshotted index on it. -/
def scrubCreateAct {Doc : Type} (env : ScrubEnv Doc) (tmp : String) (i : Nat) :
    List Ev × Option Err :=
  match env.createErr i with
  | some e => ([], some e)
  | none =>
    let rest := bpIndexAll env i tmp env.indexPaths
    (Ev.createCol i tmp :: rest.1, rest.2)

/-- Per-document action of Scrub's migration (lines 120-124): one
`insertRecovery` into the temporary collection per fetched document. -/
def scrubPerDoc {Doc : Type} (env : ScrubEnv Doc) (tid : Nat) (docID : Nat)
    (doc : Doc) : List Ev × Option Err :=
  match env.insertErr docID doc with
  | some e => ([], some e)
  | none => ([Ev.insertRec tid docID], none)

/-- Per-shard action of Scrub's swap phase (lines 127-134): drop the
original collection, then rename the temporary collection onto it. -/
def scrubSwapAct {Doc : Type} (env : ScrubEnv Doc) (colName tmp : String)
    (i : Nat) : List Ev × Option Err :=
  match env.dropErr i with
  | some e => ([], some e)
  | none =>
    match env.renameErr i with
    | some e => ([Ev.dropCol i colName], some e)
    | none => ([Ev.dropCol i colName, Ev.renameCol i tmp colName], none)

/-- Models `Scrub(colName)` (client_db.go lines 74-142): check the collection
exists in the schema cache, snapshot its index paths, create the
temporary collection (with those indexes) on every shard, reload the
schema, resolve the temporary collection's id, migrate all documents
page by page through `insertRecovery`, swap (drop original, rename
temporary) on every shard, and reload once more.  Any failure aborts
immediately with that error. -/
def scrub {Doc : Type} (env : ScrubEnv Doc) (colName : String) (ts : Nat) :
    List Ev × Option Err :=
  if env.colExists = false then ([], some "Collection does not exist")
  else
    let tmp := scrubTmpName colName ts
    let c := forAllTr env.open1Err env.close1Err (scrubCreateAct env tmp) env.nProcs
    match c.2 with
    | some e => (c.1, some e)
    | none =>
      match env.reload1Err with
      | some e => (c.1, some e)
      | none =>
        let evs1 := c.1 ++ [Ev.reloadEv]
        match env.tmpColID with
        | none => (evs1, some "TmpCol went missing?!")
        | some tid =>
          match env.docCountRes with
          | .error e => (evs1, some e)
          | .ok docCount =>
            let m := pagedScan env.pageRes (scrubPerDoc env tid) (totalPages docCount)
            match m.err with
            | some e => (evs1 ++ m.evs, some e)
            | none =>
              let evs2 := evs1 ++ m.evs
              let s := forAllTr env.open2Err env.close2Err
                (scrubSwapAct env colName tmp) env.nProcs
              match s.2 with
              | some e => (evs2 ++ s.1, some e)
              | none =>
                match env.reload2Err with
                | some e => (evs2 ++ s.1, some e)
                | none => (evs2 ++ s.1 ++ [Ev.reloadEv], none)

/-! Part: Index (client_db.go lines 179-229) -/

/-- Environment for one `Index(colName, idxPath)` run.  `Doc` is the
opaque document-value type, `Val` the opaque type of the leaf values
`db.GetIn` extracts (a `none` entry models a Go `nil` leaf). -/
structure IndexEnv (Doc Val : Type) where
  /-- Models `client.nProcs`, the shard count. -/
  nProcs : Nat
  /-- Models `db.OpenDB` outcome per shard (line 183). -/
  openErr : Nat → Option Err
  /-- whether `clientDB.Use(colName)` is non-nil on shard `i`
  (line 185). -/
  colExists : Nat → Bool
  /-- Models `Use(colName).BPIndex(idxPath)` outcome per shard (line 187). -/
  bpIdxErr : Nat → Option Err
  /-- Models `Close` outcome per shard (line 189). -/
  closeErr : Nat → Option Err
  /-- Models `client.reloadServer()` outcome (line 194). -/
  reloadErr : Option Err
  /-- Models `client.schema.GetHTIDByPath(colName, idxPath)` after the reload
  (line 198); `-1` means the lookup failed. -/
  htID : Int
  /-- Models `client.approxDocCount(colName)` outcome (line 204). -/
  docCountRes : Except Err Nat
  /-- Models `client.getDocPage(colName, page, total, true)` outcome
  (line 210). -/
  pageRes : Nat → Except Err (List (Nat × Doc))
  /-- Models `db.GetIn(doc, idxPath)`, the leaf values of the document at the
  indexed path (line 217); `none` entries are Go `nil`. -/
  getIn : Doc → List (Option Val)
  /-- Models `db.StrHash(fmt.Sprint(val))` (line 219), the fixed hash
  function. -/
  strHash : Val → Nat
  /-- Models `client.sendCmd(shard, false, C_HT_PUT, htID, key, docID)` outcome
  (line 220), keyed by `(shard, key, docID)`. -/
  sendErr : Nat → Nat → Nat → Option Err

/-- Shard-by-shard index-structure creation (lines 182-192): open the
shard, fail with "Collection does not exist" when `Use` is nil, create
the index, close.  Unlike `forAllDBsDo`, the existence check comes
before the index creation on every shard. -/
def indexBuildGo {Doc Val : Type} (env : IndexEnv Doc Val) (colName : String)
    (idxPath : List String) (i : Nat) : Nat → List Ev × Option Err
  | 0 => ([], none)
  | rem + 1 =>
    match env.openErr i with
    | some e => ([], some e)
    | none =>
      if env.colExists i = false then
        ([Ev.openShard i], some "Collection does not exist")
      else
        match env.bpIdxErr i with
        | some e => ([Ev.openShard i], some e)
        | none =>
          match env.closeErr i with
          | some e => ([Ev.openShard i, Ev.bpIndexEv i colName idxPath], some e)
          | none =>
            let rest := indexBuildGo env colName idxPath (i + 1) rem
            (Ev.openShard i :: Ev.bpIndexEv i colName idxPath ::
              Ev.closeShard i :: rest.1, rest.2)

/-- Per-value loop of the reindex scan (lines 217-224): skip `nil` leaf
values; otherwise hash the value, route the put to shard
`key % nProcs`, and dispatch it, aborting on a send failure. -/
def putVals {Doc Val : Type} (env : IndexEnv Doc Val) (docID : Nat) :
    List (Option Val) → List Ev × Option Err
  | [] => ([], none)
  | none :: vs => putVals env docID vs
  | some v :: vs =>
    match env.sendErr (env.strHash v % env.nProcs) (env.strHash v) docID with
    | some e => ([], some e)
    | none =>
      let rest := putVals env docID vs
      (Ev.htPut (env.strHash v % env.nProcs) env.htID (env.strHash v) docID ::
        rest.1, rest.2)

/-- Models `Index(colName, idxPath)` (client_db.go lines 179-229): create the
index structure on every shard in order, reload the schema, look up the
new hash table's routing identity (fail with "New hash table is
missing?!" when it is `-1`), then page through the collection and
dispatch one hash-table put per non-nil leaf value. -/
def indexOp {Doc Val : Type} (env : IndexEnv Doc Val) (colName : String)
    (idxPath : List String) : List Ev × Option Err :=
  let b := indexBuildGo env colName idxPath 0 env.nProcs
  match b.2 with
  | some e => (b.1, some e)
  | none =>
    match env.reloadErr with
    | some e => (b.1, some e)
    | none =>
      let evs1 := b.1 ++ [Ev.reloadEv]
      if env.htID = -1 then (evs1, some "New hash table is missing?!")
      else
        match env.docCountRes with
        | .error e => (evs1, some e)
        | .ok docCount =>
          let m := pagedScan env.pageRes
            (fun docID doc => putVals env docID (env.getIn doc))
            (totalPages docCount)
          (evs1 ++ m.evs, m.err)

/-! Part: Unindex (client_db.go lines 265-281) -/

/-- Environment for one `Unindex(colName, idxPath)` run. -/
structure UnindexEnv where
  /-- Models `client.nProcs`, the shard count. -/
  nProcs : Nat
  /-- Models `db.OpenDB` outcome per shard (line 269). -/
  openErr : Nat → Option Err
  /-- whether `clientDB.Use(colName)` is non-nil on shard `i`
  (line 271). -/
  colExists : Nat → Bool
  /-- Models `Use(colName).Unindex(idxPath)` outcome per shard (line 273). -/
  removeErr : Nat → Option Err
  /-- Models `Close` outcome per shard (line 275). -/
  closeErr : Nat → Option Err

/-- Shard loop of `Unindex` (lines 268-278): open the shard; when the
collection is absent there, `continue` to the next shard (without
closing the handle); otherwise remove the index and close.  Aborts only
on open, removal or close errors. -/
def unindexGo (env : UnindexEnv) (colName : String) (idxPath : List String)
    (i : Nat) : Nat → List Ev × Option Err
  | 0 => ([], none)
  | rem + 1 =>
    match env.openErr i with
    | some e => ([], some e)
    | none =>
      if env.colExists i = false then
        let rest := unindexGo env colName idxPath (i + 1) rem
        (Ev.openShard i :: rest.1, rest.2)
      else
        match env.removeErr i with
        | some e => ([Ev.openShard i], some e)
        | none =>
          match env.closeErr i with
          | some e => ([Ev.openShard i, Ev.removeIdx i colName idxPath], some e)
          | none =>
            let rest := unindexGo env colName idxPath (i + 1) rem
            (Ev.openShard i :: Ev.removeIdx i colName idxPath ::
              Ev.closeShard i :: rest.1, rest.2)

/-- Models `Unindex(colName, idxPath)` (client_db.go lines 265-281).  Note: no
schema reload is performed after the loop (no `reloadEv` is ever
emitted). -/
def unindexOp (env : UnindexEnv) (colName : String) (idxPath : List String) :
    List Ev × Option Err :=
  unindexGo env colName idxPath 0 env.nProcs

/-! Part: Schema-cache read accessors (client_db.go lines 40-53, 231-263) -/

/-- The client-local schema cache: `colNameLookup` (collection name to
collection id, a Go map, so its keys are distinct) and
`indexPathsJoint` (collection id to the set of joined index-path
strings). -/
structure Schema where
  colNameLookup : List (String × Nat)
  indexPathsJoint : Nat → List String

/-- Models `AllCols()` (lines 40-53): ping (a failure is only logged), copy the
collection names out of the cache, sort them.  Returns the names and
whether a ping-failure notice was logged. -/
def allCols (pingOk : Bool) (s : Schema) : List String × Bool :=
  ((s.colNameLookup.map Prod.fst).insertionSort (· ≤ ·), !pingOk)

/-- Models `AllIndexesJointPaths(colName)` (lines 244-263): ping (a failure is
only logged), resolve the collection id (error when absent), copy the
joined paths out of the cache, sort them. -/
def allIndexesJointPaths (pingOk : Bool) (s : Schema) (colName : String) :
    Except Err (List String) × Bool :=
  match s.colNameLookup.lookup colName with
  | none => (.error ("Collection " ++ colName ++ " does not exist"), !pingOk)
  | some colID => (.ok ((s.indexPathsJoint colID).insertionSort (· ≤ ·)), !pingOk)

/-- Models `AllIndexes(colName)` (lines 231-242): call `AllIndexesJointPaths`,
then split every joint path on `db.INDEX_PATH_SEP` (the separator is
abstract here). -/
def allIndexes (pingOk : Bool) (s : Schema) (sep : String) (colName : String) :
    Except Err (List (List String)) × Bool :=
  let r := allIndexesJointPaths pingOk s colName
  (r.1.map (fun paths => paths.map (fun p => p.splitOn sep)), r.2)

/-! Part: Closed forms of the loops when no external call fails -/

theorem forAllTrGo_noerr (openE closeE : Nat → Option Err)
    (act : Nat → List Ev × Option Err) :
    ∀ (rem i : Nat),
      (∀ j, i ≤ j → j < i + rem →
        openE j = none ∧ (act j).2 = none ∧ closeE j = none) →
      forAllTrGo openE closeE act i rem =
        ((List.range' i rem).flatMap
          (fun j => Ev.openShard j :: ((act j).1 ++ [Ev.closeShard j])), none) := by
  intro rem
  induction rem with
  | zero => intro i _; rfl
  | succ rem ih =>
    intro i h
    obtain ⟨ho, ha, hc⟩ := h i (Nat.le_refl i) (by omega)
    rcases hact : act i with ⟨evs, aerr⟩
    rw [hact] at ha
    simp only at ha
    subst ha
    have ihr := ih (i + 1) (fun j hj1 hj2 => h j (by omega) (by omega))
    rw [forAllTrGo, ho, hact, hc]
    simp [ihr, List.range', hact, List.append_assoc]

theorem bpIndexAll_noerr {Doc : Type} (env : ScrubEnv Doc) (i : Nat) (tmp : String) :
    ∀ ps : List (List String), (∀ p ∈ ps, env.bpIdxErr i p = none) →
      bpIndexAll env i tmp ps = (ps.map (Ev.bpIndexEv i tmp), none) := by
  intro ps
  induction ps with
  | nil => intro _; rfl
  | cons p ps ih =>
    intro h
    have hp := h p (List.mem_cons_self p ps)
    rw [bpIndexAll, hp, ih (fun q hq => h q (List.mem_cons_of_mem p hq))]
    rfl

theorem scrubCreateAct_noerr {Doc : Type} (env : ScrubEnv Doc) (tmp : String)
    (i : Nat) (hcr : env.createErr i = none)
    (hbp : ∀ p ∈ env.indexPaths, env.bpIdxErr i p = none) :
    scrubCreateAct env tmp i =
      (Ev.createCol i tmp :: env.indexPaths.map (Ev.bpIndexEv i tmp), none) := by
  rw [scrubCreateAct, hcr]
  simp only [bpIndexAll_noerr env i tmp env.indexPaths hbp]

theorem docLoop_noerr {Doc : Type} (perDoc : Nat → Doc → List Ev × Option Err)
    (page : Nat) :
    ∀ docs : List (Nat × Doc), (∀ d ∈ docs, (perDoc d.1 d.2).2 = none) →
      docLoop perDoc page docs =
        (docs.flatMap (fun d => (perDoc d.1 d.2).1),
         docs.map (fun d => (page, d.1)), none) := by
  intro docs
  induction docs with
  | nil => intro _; rfl
  | cons d docs ih =>
    intro h
    rcases d with ⟨docID, doc⟩
    have hd := h (docID, doc) (List.mem_cons_self _ _)
    rcases hpd : perDoc docID doc with ⟨evs, aerr⟩
    rw [hpd] at hd
    simp only at hd
    subst hd
    rw [docLoop, hpd, ih (fun q hq => h q (List.mem_cons_of_mem _ hq))]
    simp [hpd]

theorem pageLoopGo_noerr {Doc : Type}
    (pageRes : Nat → Except Err (List (Nat × Doc)))
    (perDoc : Nat → Doc → List Ev × Option Err)
    (pageOk : Nat → List (Nat × Doc)) :
    ∀ (rem i : Nat),
      (∀ p, i ≤ p → p < i + rem → pageRes p = .ok (pageOk p)) →
      (∀ docID doc, (perDoc docID doc).2 = none) →
      pageLoopGo pageRes perDoc i rem =
        ⟨(List.range' i rem).flatMap
           (fun p => (pageOk p).flatMap (fun d => (perDoc d.1 d.2).1)),
         List.range' i rem,
         (List.range' i rem).flatMap (fun p => (pageOk p).map (fun d => (p, d.1))),
         none⟩ := by
  intro rem
  induction rem with
  | zero => intro i _ _; rfl
  | succ rem ih =>
    intro i hpage hdoc
    have hp := hpage i (Nat.le_refl i) (by omega)
    have hdl := docLoop_noerr perDoc i (pageOk i) (fun d _ => hdoc d.1 d.2)
    have ihr := ih (i + 1) (fun p h1 h2 => hpage p (by omega) (by omega)) hdoc
    rw [pageLoopGo, hp]
    simp only
    rw [hdl]
    simp only
    rw [ihr]
    simp [List.range', List.append_assoc]

/-- Every event emitted by the document loop comes from some `perDoc`
call. -/
theorem docLoop_evs_shape {Doc : Type} (perDoc : Nat → Doc → List Ev × Option Err)
    (page : Nat) (P : Ev → Prop)
    (hP : ∀ docID doc, ∀ ev ∈ (perDoc docID doc).1, P ev) :
    ∀ docs : List (Nat × Doc), ∀ ev ∈ (docLoop perDoc page docs).1, P ev := by
  intro docs
  induction docs with
  | nil => intro ev hev; simp [docLoop] at hev
  | cons d docs ih =>
    intro ev hev
    rcases d with ⟨docID, doc⟩
    rcases hpd : perDoc docID doc with ⟨evs, aerr⟩
    rw [docLoop, hpd] at hev
    cases aerr with
    | some e =>
      simp only at hev
      exact hP docID doc ev (by rw [hpd]; exact hev)
    | none =>
      simp only [List.mem_append] at hev
      rcases hev with hev | hev
      · exact hP docID doc ev (by rw [hpd]; exact hev)
      · exact ih ev hev

/-- Every event emitted by the paginated scan comes from some `perDoc`
call. -/
theorem pageLoopGo_evs_shape {Doc : Type}
    (pageRes : Nat → Except Err (List (Nat × Doc)))
    (perDoc : Nat → Doc → List Ev × Option Err) (P : Ev → Prop)
    (hP : ∀ docID doc, ∀ ev ∈ (perDoc docID doc).1, P ev) :
    ∀ (rem i : Nat), ∀ ev ∈ (pageLoopGo pageRes perDoc i rem).evs, P ev := by
  intro rem
  induction rem with
  | zero => intro i ev hev; simp [pageLoopGo] at hev
  | succ rem ih =>
    intro i ev hev
    rw [pageLoopGo] at hev
    cases hp : pageRes i with
    | error e => rw [hp] at hev; simp at hev
    | ok docs =>
      rw [hp] at hev
      simp only at hev
      rcases hdl : docLoop perDoc i docs with ⟨evs, vis, aerr⟩
      rw [hdl] at hev
      cases aerr with
      | some e =>
        simp only at hev
        exact docLoop_evs_shape perDoc i P hP docs ev (by rw [hdl]; exact hev)
      | none =>
        simp only [List.mem_append] at hev
        rcases hev with hev | hev
        · exact docLoop_evs_shape perDoc i P hP docs ev (by rw [hdl]; exact hev)
        · exact ih (i + 1) ev hev

theorem scrubSwapAct_noerr {Doc : Type} (env : ScrubEnv Doc) (colName tmp : String)
    (i : Nat) (hd : env.dropErr i = none) (hr : env.renameErr i = none) :
    scrubSwapAct env colName tmp i =
      ([Ev.dropCol i colName, Ev.renameCol i tmp colName], none) := by
  rw [scrubSwapAct, hd, hr]

/-- Closed form of Scrub's create phase when every open, create,
index-creation and close succeeds. -/
theorem scrubCreatePhase_noerr {Doc : Type} (env : ScrubEnv Doc) (tmp : String)
    (hcreate : ∀ i, i < env.nProcs →
      env.open1Err i = none ∧ env.createErr i = none ∧
        (∀ p ∈ env.indexPaths, env.bpIdxErr i p = none) ∧ env.close1Err i = none) :
    forAllTr env.open1Err env.close1Err (scrubCreateAct env tmp) env.nProcs =
      ((List.range env.nProcs).flatMap (fun i =>
        Ev.openShard i :: Ev.createCol i tmp ::
          (env.indexPaths.map (Ev.bpIndexEv i tmp) ++ [Ev.closeShard i])), none) := by
  have hact : ∀ j, j < env.nProcs → scrubCreateAct env tmp j =
      (Ev.createCol j tmp :: env.indexPaths.map (Ev.bpIndexEv j tmp), none) := by
    intro j hj
    obtain ⟨-, hcr, hbp, -⟩ := hcreate j hj
    exact scrubCreateAct_noerr env tmp j hcr hbp
  have hfa := forAllTrGo_noerr env.open1Err env.close1Err (scrubCreateAct env tmp)
    env.nProcs 0 (fun j hj1 hj2 => by
      obtain ⟨ho, -, -, hcl⟩ := hcreate j (by omega)
      exact ⟨ho, by rw [hact j (by omega)], hcl⟩)
  rw [forAllTr, hfa, ← List.range_eq_range']
  have hcong : ∀ i ∈ List.range env.nProcs,
      Ev.openShard i :: ((scrubCreateAct env tmp i).1 ++ [Ev.closeShard i]) =
      Ev.openShard i :: Ev.createCol i tmp ::
        (env.indexPaths.map (Ev.bpIndexEv i tmp) ++ [Ev.closeShard i]) := by
    intro i hi
    rw [List.mem_range] at hi
    rw [hact i hi]
    rfl
  rw [List.flatMap_congr hcong]

/-- Closed form of Scrub's swap phase when every open, drop, rename and
close succeeds. -/
theorem scrubSwapPhase_noerr {Doc : Type} (env : ScrubEnv Doc) (colName tmp : String)
    (hswap : ∀ i, i < env.nProcs →
      env.open2Err i = none ∧ env.dropErr i = none ∧ env.renameErr i = none ∧
        env.close2Err i = none) :
    forAllTr env.open2Err env.close2Err (scrubSwapAct env colName tmp) env.nProcs =
      ((List.range env.nProcs).flatMap (fun i =>
        [Ev.openShard i, Ev.dropCol i colName, Ev.renameCol i tmp colName,
         Ev.closeShard i]), none) := by
  have hact : ∀ j, j < env.nProcs → scrubSwapAct env colName tmp j =
      ([Ev.dropCol j colName, Ev.renameCol j tmp colName], none) := by
    intro j hj
    obtain ⟨-, hd, hr, -⟩ := hswap j hj
    exact scrubSwapAct_noerr env colName tmp j hd hr
  have hfa := forAllTrGo_noerr env.open2Err env.close2Err
    (scrubSwapAct env colName tmp) env.nProcs 0 (fun j hj1 hj2 => by
      obtain ⟨ho, -, -, hcl⟩ := hswap j (by omega)
      exact ⟨ho, by rw [hact j (by omega)], hcl⟩)
  rw [forAllTr, hfa, ← List.range_eq_range']
  have hcong : ∀ i ∈ List.range env.nProcs,
      Ev.openShard i :: ((scrubSwapAct env colName tmp i).1 ++ [Ev.closeShard i]) =
      [Ev.openShard i, Ev.dropCol i colName, Ev.renameCol i tmp colName,
       Ev.closeShard i] := by
    intro i hi
    rw [List.mem_range] at hi
    rw [hact i hi]
    rfl
  rw [List.flatMap_congr hcong]

/-- Closed form of Scrub's migration scan when every page fetch and every
recovery insert succeeds. -/
theorem scrubMigrate_noerr {Doc : Type} (env : ScrubEnv Doc) (tid : Nat)
    (pageOk : Nat → List (Nat × Doc)) (total : Nat)
    (hpages : ∀ p, p < total → env.pageRes p = Except.ok (pageOk p))
    (hins : ∀ docID doc, env.insertErr docID doc = none) :
    pagedScan env.pageRes (scrubPerDoc env tid) total =
      ⟨(List.range total).flatMap (fun p =>
          (pageOk p).map (fun d => Ev.insertRec tid d.1)),
       List.range total,
       (List.range total).flatMap (fun p => (pageOk p).map (fun d => (p, d.1))),
       none⟩ := by
  have hm := pageLoopGo_noerr env.pageRes (scrubPerDoc env tid) pageOk total 0
    (fun p h1 h2 => hpages p (by omega))
    (fun docID doc => by simp [scrubPerDoc, hins docID doc])
  rw [pagedScan, hm, ← List.range_eq_range']
  have hA : ∀ p ∈ List.range total,
      (pageOk p).flatMap (fun d => (scrubPerDoc env tid d.1 d.2).1) =
      (pageOk p).map (fun d => Ev.insertRec tid d.1) := by
    intro p _
    have h1 : ∀ d ∈ pageOk p, (scrubPerDoc env tid d.1 d.2).1 =
        [Ev.insertRec tid d.1] := by
      intro d _
      simp [scrubPerDoc, hins d.1 d.2]
    rw [List.flatMap_congr h1]
    exact (List.map_eq_flatMap _ _).symm
  rw [List.flatMap_congr hA]

/-- C3: `Scrub(colName)` generates the temporary collection name
`scrub-<original>-<nanosecond timestamp>`; under uniform shard
application it creates the temporary collection on every shard and
recreates every snapshotted index path on it (per shard: create, then
one index creation per snapshotted path, in order); after migrating the
documents, its final swap phase drops the original collection and then
renames the temporary collection to the original name, per shard, in
that order.  The conclusion exhibits the full success trace. -/
theorem C3_scrub_structure {Doc : Type} (env : ScrubEnv Doc) (colName : String)
    (ts : Nat) (pageOk : Nat → List (Nat × Doc)) (tid dc : Nat)
    (hex : env.colExists = true)
    (hcreate : ∀ i, i < env.nProcs →
      env.open1Err i = none ∧ env.createErr i = none ∧
        (∀ p ∈ env.indexPaths, env.bpIdxErr i p = none) ∧ env.close1Err i = none)
    (hrel1 : env.reload1Err = none)
    (htid : env.tmpColID = some tid)
    (hdc : env.docCountRes = Except.ok dc)
    (hpages : ∀ p, p < totalPages dc → env.pageRes p = Except.ok (pageOk p))
    (hins : ∀ docID doc, env.insertErr docID doc = none)
    (hswap : ∀ i, i < env.nProcs →
      env.open2Err i = none ∧ env.dropErr i = none ∧ env.renameErr i = none ∧
        env.close2Err i = none)
    (hrel2 : env.reload2Err = none) :
    scrub env colName ts =
      ((List.range env.nProcs).flatMap (fun i =>
          Ev.openShard i :: Ev.createCol i (scrubTmpName colName ts) ::
            (env.indexPaths.map (Ev.bpIndexEv i (scrubTmpName colName ts)) ++
              [Ev.closeShard i]))
        ++ [Ev.reloadEv]
        ++ (List.range (totalPages dc)).flatMap (fun p =>
            (pageOk p).map (fun d => Ev.insertRec tid d.1))
        ++ (List.range env.nProcs).flatMap (fun i =>
            [Ev.openShard i, Ev.dropCol i colName,
             Ev.renameCol i (scrubTmpName colName ts) colName, Ev.closeShard i])
        ++ [Ev.reloadEv], none) ∧
    scrubTmpName colName ts = "scrub-" ++ colName ++ "-" ++ toString ts := by
  refine ⟨?_, rfl⟩
  have hc := scrubCreatePhase_noerr env (scrubTmpName colName ts) hcreate
  have hmig := scrubMigrate_noerr env tid pageOk (totalPages dc) hpages hins
  have hs := scrubSwapPhase_noerr env colName (scrubTmpName colName ts) hswap
  rw [scrub]
  rw [if_neg (by rw [hex]; simp)]
  simp only [hc, hrel1, htid, hdc, hmig, hs, hrel2]

/-- Environment for the C3 witness: two shards, two snapshotted index
paths, one page of two documents, everything succeeding. -/
def envC3w : ScrubEnv Nat where
  nProcs := 2
  colExists := true
  indexPaths := [["a"], ["b", "c"]]
  open1Err := fun _ => none
  close1Err := fun _ => none
  createErr := fun _ => none
  bpIdxErr := fun _ _ => none
  reload1Err := none
  tmpColID := some 7
  docCountRes := Except.ok 0
  pageRes := fun _ => Except.ok [(11, 0), (12, 0)]
  insertErr := fun _ _ => none
  open2Err := fun _ => none
  close2Err := fun _ => none
  dropErr := fun _ => none
  renameErr := fun _ => none
  reload2Err := none

/-- Witness for C3 at a concrete environment. -/
theorem C3_witness :
    scrub envC3w "col" 42 =
      ((List.range envC3w.nProcs).flatMap (fun i =>
          Ev.openShard i :: Ev.createCol i (scrubTmpName "col" 42) ::
            (envC3w.indexPaths.map (Ev.bpIndexEv i (scrubTmpName "col" 42)) ++
              [Ev.closeShard i]))
        ++ [Ev.reloadEv]
        ++ (List.range (totalPages 0)).flatMap (fun _ =>
            (([(11, 0), (12, 0)] : List (Nat × Nat)).map
              (fun d => Ev.insertRec 7 d.1)))
        ++ (List.range envC3w.nProcs).flatMap (fun i =>
            [Ev.openShard i, Ev.dropCol i "col",
             Ev.renameCol i (scrubTmpName "col" 42) "col", Ev.closeShard i])
        ++ [Ev.reloadEv], none) ∧
    scrubTmpName "col" 42 = "scrub-" ++ "col" ++ "-" ++ toString 42 :=
  C3_scrub_structure envC3w "col" 42 (fun _ => [(11, 0), (12, 0)]) 7 0 rfl
    (by decide) rfl rfl rfl (fun _ _ => rfl) (fun _ _ => rfl) (by decide) rfl

/-- The temporary collection's name is never equal to the original
collection's name (it is strictly longer). -/
theorem scrubTmpName_ne (colName : String) (ts : Nat) :
    scrubTmpName colName ts ≠ colName := by
  intro h
  have hlen := congrArg String.length h
  rw [scrubTmpName] at hlen
  have h6 : ("scrub-" : String).length = 6 := rfl
  have h1 : ("-" : String).length = 1 := rfl
  rw [String.length_append, String.length_append, String.length_append,
    h6, h1] at hlen
  omega

theorem scrubPerDoc_evs_shape {Doc : Type} (env : ScrubEnv Doc) (tid : Nat) :
    ∀ (docID : Nat) (doc : Doc), ∀ ev ∈ (scrubPerDoc env tid docID doc).1,
      ∃ t d, ev = Ev.insertRec t d := by
  intro docID doc ev hev
  rw [scrubPerDoc] at hev
  cases h : env.insertErr docID doc with
  | some e => rw [h] at hev; simp at hev
  | none =>
    rw [h] at hev
    simp at hev
    exact ⟨tid, docID, hev⟩

/-- Packaging of the C9 conclusions, given that the scrub run returned
the full create-phase trace followed only by reload and recovery-insert
events. -/
theorem scrub_midfail_concl {Doc : Type} (env : ScrubEnv Doc) (colName : String)
    (ts : Nat) (rest : List Ev) (err : Err)
    (hres : scrub env colName ts =
      ((List.range env.nProcs).flatMap (fun i =>
        Ev.openShard i :: Ev.createCol i (scrubTmpName colName ts) ::
          (env.indexPaths.map (Ev.bpIndexEv i (scrubTmpName colName ts)) ++
            [Ev.closeShard i])) ++ rest, some err))
    (hrest : ∀ ev ∈ rest, ev = Ev.reloadEv ∨ ∃ t d, ev = Ev.insertRec t d) :
    (scrub env colName ts).2.isSome = true ∧
    (∀ i, i < env.nProcs →
      Ev.createCol i (scrubTmpName colName ts) ∈ (scrub env colName ts).1 ∧
      ∀ p ∈ env.indexPaths,
        Ev.bpIndexEv i (scrubTmpName colName ts) p ∈ (scrub env colName ts).1) ∧
    (∀ i c, Ev.dropCol i c ∉ (scrub env colName ts).1) ∧
    (∀ i a b, Ev.renameCol i a b ∉ (scrub env colName ts).1) ∧
    scrubTmpName colName ts ≠ colName := by
  have hctOk : ∀ ev ∈ (List.range env.nProcs).flatMap (fun i =>
      Ev.openShard i :: Ev.createCol i (scrubTmpName colName ts) ::
        (env.indexPaths.map (Ev.bpIndexEv i (scrubTmpName colName ts)) ++
          [Ev.closeShard i])),
      (∀ i c, ev ≠ Ev.dropCol i c) ∧ (∀ i a b, ev ≠ Ev.renameCol i a b) := by
    intro ev hev
    rw [List.mem_flatMap] at hev
    obtain ⟨j, -, hj⟩ := hev
    simp only [List.mem_cons, List.mem_append, List.mem_map,
      List.mem_singleton] at hj
    rcases hj with rfl | rfl | ⟨p, -, rfl⟩ | rfl | h <;> simp_all
  rw [hres]
  refine ⟨rfl, fun i hi => ⟨?_, fun p hp => ?_⟩, fun i c hmem => ?_,
    fun i a b hmem => ?_, scrubTmpName_ne colName ts⟩
  · refine List.mem_append_left _ ?_
    rw [List.mem_flatMap]
    exact ⟨i, List.mem_range.mpr hi, by simp⟩
  · refine List.mem_append_left _ ?_
    rw [List.mem_flatMap]
    refine ⟨i, List.mem_range.mpr hi, ?_⟩
    apply List.mem_cons_of_mem
    apply List.mem_cons_of_mem
    apply List.mem_append_left
    exact List.mem_map.mpr ⟨p, hp, rfl⟩
  · rcases List.mem_append.mp hmem with h | h
    · exact (hctOk _ h).1 i c rfl
    · rcases hrest _ h with h1 | ⟨t, d, h1⟩ <;> simp at h1
  · rcases List.mem_append.mp hmem with h | h
    · exact (hctOk _ h).2 i a b rfl
    · rcases hrest _ h with h1 | ⟨t, d, h1⟩ <;> simp at h1

/-- C9: if `Scrub` fails after the temporary collection and its indexes
have been created on every shard but before the swap phase begins (i.e.
during the schema reload, the temporary-collection-id lookup, the
document-count query, a page fetch or a recovery insert), then the run
returns an error; its trace still contains the creation of the
temporary collection and of every snapshotted index on every shard;
no drop and no rename event occurs (so the original collection is left
unmodified and the temporary collection — whose name differs from the
original's — is never dropped or cleaned up). -/
theorem C9_scrub_midfail {Doc : Type} (env : ScrubEnv Doc) (colName : String)
    (ts : Nat)
    (hex : env.colExists = true)
    (hcreate : ∀ i, i < env.nProcs →
      env.open1Err i = none ∧ env.createErr i = none ∧
        (∀ p ∈ env.indexPaths, env.bpIdxErr i p = none) ∧ env.close1Err i = none)
    (hfail : env.reload1Err.isSome = true ∨ env.tmpColID = none ∨
      (∃ e, env.docCountRes = Except.error e) ∨
      (∃ tid dc, env.tmpColID = some tid ∧ env.docCountRes = Except.ok dc ∧
        (pagedScan env.pageRes (scrubPerDoc env tid)
          (totalPages dc)).err.isSome = true)) :
    (scrub env colName ts).2.isSome = true ∧
    (∀ i, i < env.nProcs →
      Ev.createCol i (scrubTmpName colName ts) ∈ (scrub env colName ts).1 ∧
      ∀ p ∈ env.indexPaths,
        Ev.bpIndexEv i (scrubTmpName colName ts) p ∈ (scrub env colName ts).1) ∧
    (∀ i c, Ev.dropCol i c ∉ (scrub env colName ts).1) ∧
    (∀ i a b, Ev.renameCol i a b ∉ (scrub env colName ts).1) ∧
    scrubTmpName colName ts ≠ colName := by
  have hc := scrubCreatePhase_noerr env (scrubTmpName colName ts) hcreate
  cases hrel : env.reload1Err with
  | some e =>
    refine scrub_midfail_concl env colName ts [] e ?_ (by simp)
    rw [scrub, if_neg (by rw [hex]; simp)]
    simp only [hc, hrel, List.append_nil]
  | none =>
    cases htid2 : env.tmpColID with
    | none =>
      refine scrub_midfail_concl env colName ts [Ev.reloadEv]
        "TmpCol went missing?!" ?_ (by simp)
      rw [scrub, if_neg (by rw [hex]; simp)]
      simp only [hc, hrel, htid2]
    | some tid =>
      cases hdc2 : env.docCountRes with
      | error e =>
        refine scrub_midfail_concl env colName ts [Ev.reloadEv] e ?_ (by simp)
        rw [scrub, if_neg (by rw [hex]; simp)]
        simp only [hc, hrel, htid2, hdc2]
      | ok dc =>
        cases hmerr : (pagedScan env.pageRes (scrubPerDoc env tid)
            (totalPages dc)).err with
        | some e =>
          refine scrub_midfail_concl env colName ts
            (Ev.reloadEv :: (pagedScan env.pageRes (scrubPerDoc env tid)
              (totalPages dc)).evs) e ?_ ?_
          · rw [scrub, if_neg (by rw [hex]; simp)]
            simp only [hc, hrel, htid2, hdc2, hmerr]
            simp [List.append_assoc]
          · intro ev hev
            rcases List.mem_cons.mp hev with rfl | hev
            · exact Or.inl rfl
            · exact Or.inr (pageLoopGo_evs_shape env.pageRes (scrubPerDoc env tid)
                (fun ev => ∃ t d, ev = Ev.insertRec t d)
                (scrubPerDoc_evs_shape env tid) (totalPages dc) 0 ev hev)
        | none =>
          exfalso
          rcases hfail with h | h | ⟨e, h⟩ | ⟨tid', dc', h1, h2, h4⟩
          · rw [hrel] at h; simp at h
          · rw [htid2] at h; simp at h
          · rw [hdc2] at h; simp at h
          · rw [htid2] at h1
            rw [hdc2] at h2
            cases h1
            cases h2
            rw [hmerr] at h4
            simp at h4

/-- Closed form of the index build loop when every open, existence
check, index creation and close succeeds. -/
theorem indexBuildGo_noerr {Doc Val : Type} (env : IndexEnv Doc Val)
    (colName : String) (idxPath : List String) :
    ∀ (rem i : Nat),
      (∀ j, i ≤ j → j < i + rem →
        env.openErr j = none ∧ env.colExists j = true ∧
          env.bpIdxErr j = none ∧ env.closeErr j = none) →
      indexBuildGo env colName idxPath i rem =
        ((List.range' i rem).flatMap (fun j =>
          [Ev.openShard j, Ev.bpIndexEv j colName idxPath, Ev.closeShard j]),
         none) := by
  intro rem
  induction rem with
  | zero => intro i _; rfl
  | succ rem ih =>
    intro i h
    obtain ⟨ho, hx, hbp, hcl⟩ := h i (Nat.le_refl i) (by omega)
    have ihr := ih (i + 1) (fun j hj1 hj2 => h j (by omega) (by omega))
    rw [indexBuildGo, ho, hx]
    simp only [Bool.true_eq_false, if_false, hbp, hcl, ihr]
    simp [List.range']

/-- Closed form of the per-value put loop when every send succeeds: one
put per non-nil leaf value, routed to shard `strHash v % nProcs` and
carrying the routing identity, the hashed value and the document id. -/
theorem putVals_noerr {Doc Val : Type} (env : IndexEnv Doc Val) (docID : Nat)
    (hsend : ∀ s k d, env.sendErr s k d = none) :
    ∀ vs : List (Option Val),
      putVals env docID vs =
        ((vs.filterMap id).map (fun v =>
          Ev.htPut (env.strHash v % env.nProcs) env.htID (env.strHash v) docID),
         none) := by
  intro vs
  induction vs with
  | nil => rfl
  | cons v vs ih =>
    cases v with
    | none =>
      rw [putVals, ih]
      simp
    | some v =>
      rw [putVals, hsend (env.strHash v % env.nProcs) (env.strHash v) docID, ih]
      simp [List.filterMap_cons]

/-- C2: on a successful `Index(colName, idxPath)` run, the trace is the
per-shard index creation followed by the schema reload followed by
exactly one hash-table put per non-nil leaf value of every document on
every page: the put for value `v` of document `d` is routed to shard
`strHash v % nProcs` and carries the routing identity `htID`, the
hashed value `strHash v` and the document id.  Nil leaf values are
skipped (the `filterMap`).  The trace is a pure function of the
environment — in particular of the hash function and the shard count —
so re-running it on an unchanged collection routes every
(value, docID) pair identically. -/
theorem C2_index_routing {Doc Val : Type} (env : IndexEnv Doc Val)
    (colName : String) (idxPath : List String)
    (pageOk : Nat → List (Nat × Doc)) (dc : Nat)
    (hbuild : ∀ i, i < env.nProcs →
      env.openErr i = none ∧ env.colExists i = true ∧ env.bpIdxErr i = none ∧
        env.closeErr i = none)
    (hrel : env.reloadErr = none)
    (hht : ¬env.htID = -1)
    (hdc : env.docCountRes = Except.ok dc)
    (hpages : ∀ p, p < totalPages dc → env.pageRes p = Except.ok (pageOk p))
    (hsend : ∀ s k d, env.sendErr s k d = none) :
    indexOp env colName idxPath =
      ((List.range env.nProcs).flatMap (fun i =>
          [Ev.openShard i, Ev.bpIndexEv i colName idxPath, Ev.closeShard i])
        ++ [Ev.reloadEv]
        ++ (List.range (totalPages dc)).flatMap (fun p =>
            (pageOk p).flatMap (fun d =>
              ((env.getIn d.2).filterMap id).map (fun v =>
                Ev.htPut (env.strHash v % env.nProcs) env.htID (env.strHash v)
                  d.1))), none) := by
  have hb : indexBuildGo env colName idxPath 0 env.nProcs =
      ((List.range env.nProcs).flatMap (fun j =>
        [Ev.openShard j, Ev.bpIndexEv j colName idxPath, Ev.closeShard j]),
       none) := by
    rw [indexBuildGo_noerr env colName idxPath env.nProcs 0
      (fun j hj1 hj2 => hbuild j (by omega)), ← List.range_eq_range']
  have hscan := pageLoopGo_noerr env.pageRes
    (fun docID doc => putVals env docID (env.getIn doc)) pageOk (totalPages dc) 0
    (fun p h1 h2 => hpages p (by omega))
    (fun docID doc => by
      show (putVals env docID (env.getIn doc)).2 = none
      rw [putVals_noerr env docID hsend])
  have hm : pagedScan env.pageRes
      (fun docID doc => putVals env docID (env.getIn doc)) (totalPages dc) =
      ⟨(List.range (totalPages dc)).flatMap (fun p =>
          (pageOk p).flatMap (fun d =>
            ((env.getIn d.2).filterMap id).map (fun v =>
              Ev.htPut (env.strHash v % env.nProcs) env.htID (env.strHash v)
                d.1))),
       List.range (totalPages dc),
       (List.range (totalPages dc)).flatMap (fun p =>
         (pageOk p).map (fun d => (p, d.1))),
       none⟩ := by
    rw [pagedScan, hscan, ← List.range_eq_range']
    have hA : ∀ p ∈ List.range (totalPages dc),
        (pageOk p).flatMap
          (fun d => (putVals env d.1 (env.getIn d.2)).1) =
        (pageOk p).flatMap (fun d =>
          ((env.getIn d.2).filterMap id).map (fun v =>
            Ev.htPut (env.strHash v % env.nProcs) env.htID (env.strHash v)
              d.1)) := by
      intro p _
      refine List.flatMap_congr (fun d _ => ?_)
      rw [putVals_noerr env d.1 hsend]
    rw [List.flatMap_congr hA]
  rw [indexOp]
  simp only [hb, hrel]
  rw [if_neg hht]
  simp only [hdc, hm]

/-- Environment for the C2 witness: two shards, one page with two
documents over `Doc := List (Option Nat)` (the document is its own leaf
list), hash of `v` is `v` itself. -/
def envC2w : IndexEnv (List (Option Nat)) Nat where
  nProcs := 2
  openErr := fun _ => none
  colExists := fun _ => true
  bpIdxErr := fun _ => none
  closeErr := fun _ => none
  reloadErr := none
  htID := 9
  docCountRes := Except.ok 0
  pageRes := fun _ => Except.ok [(100, [some 3, none, some 4]), (101, [none])]
  getIn := fun doc => doc
  strHash := fun v => v
  sendErr := fun _ _ _ => none

/-- Witness for C2 at a concrete environment: document 100 has non-nil
leaf values 3 and 4 routed to shards 1 and 0; document 101 has only a
nil leaf, so it contributes no put. -/
theorem C2_witness :
    indexOp envC2w "col" ["f"] =
      ((List.range envC2w.nProcs).flatMap (fun i =>
          [Ev.openShard i, Ev.bpIndexEv i "col" ["f"], Ev.closeShard i])
        ++ [Ev.reloadEv]
        ++ (List.range (totalPages 0)).flatMap (fun _ =>
            (([(100, [some 3, none, some 4]), (101, [none])] :
                List (Nat × List (Option Nat))).flatMap (fun d =>
              ((envC2w.getIn d.2).filterMap id).map (fun v =>
                Ev.htPut (envC2w.strHash v % envC2w.nProcs) envC2w.htID
                  (envC2w.strHash v) d.1)))), none) :=
  C2_index_routing envC2w "col" ["f"]
    (fun _ => [(100, [some 3, none, some 4]), (101, [none])]) 0
    (by decide) rfl (by decide) rfl (fun _ _ => rfl) (fun _ _ _ => rfl)

/-- Every event of Scrub's create-phase trace is an open, a create of
the temporary collection, an index creation on it, or a close. -/
theorem createTrace_kinds {Doc : Type} (env : ScrubEnv Doc) (tmp : String) (ev : Ev)
    (hev : ev ∈ (List.range env.nProcs).flatMap (fun i =>
      Ev.openShard i :: Ev.createCol i tmp ::
        (env.indexPaths.map (Ev.bpIndexEv i tmp) ++ [Ev.closeShard i]))) :
    (∃ i, ev = Ev.openShard i) ∨ (∃ i, ev = Ev.createCol i tmp) ∨
    (∃ i p, ev = Ev.bpIndexEv i tmp p) ∨ (∃ i, ev = Ev.closeShard i) := by
  rw [List.mem_flatMap] at hev
  obtain ⟨j, -, hj⟩ := hev
  simp only [List.mem_cons, List.mem_append, List.mem_map,
    List.mem_singleton] at hj
  rcases hj with rfl | rfl | ⟨p, -, rfl⟩ | rfl | h
  · exact Or.inl ⟨j, rfl⟩
  · exact Or.inr (Or.inl ⟨j, rfl⟩)
  · exact Or.inr (Or.inr (Or.inl ⟨j, p, rfl⟩))
  · exact Or.inr (Or.inr (Or.inr ⟨j, rfl⟩))
  · simp at h

/-- C6: `Index(colName, idxPath)` checks on each shard — before creating
the index structure there — that the collection exists; when shard 0
lacks it, the whole operation returns the error
"Collection does not exist" and no index structure is built on any
shard (and no put is dispatched). -/
theorem C6_index_missing_collection {Doc Val : Type} (env : IndexEnv Doc Val)
    (colName : String) (idxPath : List String)
    (hn : 0 < env.nProcs) (hopen : env.openErr 0 = none)
    (hex : env.colExists 0 = false) :
    (indexOp env colName idxPath).2 = some "Collection does not exist" ∧
    (∀ i c p, Ev.bpIndexEv i c p ∉ (indexOp env colName idxPath).1) ∧
    (∀ s h k d, Ev.htPut s h k d ∉ (indexOp env colName idxPath).1) := by
  obtain ⟨rem, hrem⟩ : ∃ rem, env.nProcs = rem + 1 :=
    ⟨env.nProcs - 1, by omega⟩
  have hb : indexBuildGo env colName idxPath 0 env.nProcs =
      ([Ev.openShard 0], some "Collection does not exist") := by
    rw [hrem, indexBuildGo, hopen, hex]
    simp
  have hres : indexOp env colName idxPath =
      ([Ev.openShard 0], some "Collection does not exist") := by
    rw [indexOp]
    simp only [hb]
  rw [hres]
  refine ⟨rfl, fun i c p hmem => ?_, fun s h k d hmem => ?_⟩ <;> simp at hmem

/-- Environment for the C6 witness: two shards, the collection missing
from shard 0. -/
def envC6w : IndexEnv Nat Nat where
  nProcs := 2
  openErr := fun _ => none
  colExists := fun _ => false
  bpIdxErr := fun _ => none
  closeErr := fun _ => none
  reloadErr := none
  htID := 3
  docCountRes := Except.ok 0
  pageRes := fun _ => Except.ok []
  getIn := fun _ => []
  strHash := fun v => v
  sendErr := fun _ _ _ => none

/-- Witness for C6 at a concrete environment. -/
theorem C6_witness :
    (indexOp envC6w "col" ["f"]).2 = some "Collection does not exist" ∧
    (∀ i c p, Ev.bpIndexEv i c p ∉ (indexOp envC6w "col" ["f"]).1) ∧
    (∀ s h k d, Ev.htPut s h k d ∉ (indexOp envC6w "col" ["f"]).1) :=
  C6_index_missing_collection envC6w "col" ["f"] (by decide) rfl rfl

/-- C7: after its schema reload, `Index` fails with the error
"New hash table is missing?!" and dispatches no put command when the
reloaded cache's routing identity for (collection, path) is `-1`; and
`Scrub` fails with the error "TmpCol went missing?!", migrates no
document and performs no swap (no drop, no rename) when the reloaded
cache has no id for the just-created temporary collection.  In both
cases the model returns at once: no retry, no further events. -/
theorem C7_reload_consistency {Doc Val Doc2 : Type}
    (env : IndexEnv Doc Val) (colName : String) (idxPath : List String)
    (env2 : ScrubEnv Doc2) (colName2 : String) (ts : Nat)
    (hbuild : ∀ i, i < env.nProcs →
      env.openErr i = none ∧ env.colExists i = true ∧ env.bpIdxErr i = none ∧
        env.closeErr i = none)
    (hrel : env.reloadErr = none)
    (hht : env.htID = -1)
    (hex2 : env2.colExists = true)
    (hcreate2 : ∀ i, i < env2.nProcs →
      env2.open1Err i = none ∧ env2.createErr i = none ∧
        (∀ p ∈ env2.indexPaths, env2.bpIdxErr i p = none) ∧
        env2.close1Err i = none)
    (hrel1 : env2.reload1Err = none)
    (htmp : env2.tmpColID = none) :
    ((indexOp env colName idxPath).2 = some "New hash table is missing?!" ∧
      ∀ s h k d, Ev.htPut s h k d ∉ (indexOp env colName idxPath).1) ∧
    ((scrub env2 colName2 ts).2 = some "TmpCol went missing?!" ∧
      (∀ t d, Ev.insertRec t d ∉ (scrub env2 colName2 ts).1) ∧
      (∀ i c, Ev.dropCol i c ∉ (scrub env2 colName2 ts).1) ∧
      (∀ i a b, Ev.renameCol i a b ∉ (scrub env2 colName2 ts).1)) := by
  constructor
  · have hb : indexBuildGo env colName idxPath 0 env.nProcs =
        ((List.range env.nProcs).flatMap (fun j =>
          [Ev.openShard j, Ev.bpIndexEv j colName idxPath, Ev.closeShard j]),
         none) := by
      rw [indexBuildGo_noerr env colName idxPath env.nProcs 0
        (fun j hj1 hj2 => hbuild j (by omega)), ← List.range_eq_range']
    have hres : indexOp env colName idxPath =
        ((List.range env.nProcs).flatMap (fun j =>
          [Ev.openShard j, Ev.bpIndexEv j colName idxPath, Ev.closeShard j])
          ++ [Ev.reloadEv], some "New hash table is missing?!") := by
      rw [indexOp]
      simp only [hb, hrel]
      rw [if_pos hht]
    rw [hres]
    refine ⟨rfl, fun s h k d hmem => ?_⟩
    rcases List.mem_append.mp hmem with hm2 | hm2
    · rw [List.mem_flatMap] at hm2
      obtain ⟨j, -, hj⟩ := hm2
      simp at hj
    · simp at hm2
  · have hc := scrubCreatePhase_noerr env2 (scrubTmpName colName2 ts) hcreate2
    have hres : scrub env2 colName2 ts =
        ((List.range env2.nProcs).flatMap (fun i =>
          Ev.openShard i :: Ev.createCol i (scrubTmpName colName2 ts) ::
            (env2.indexPaths.map (Ev.bpIndexEv i (scrubTmpName colName2 ts)) ++
              [Ev.closeShard i]))
          ++ [Ev.reloadEv], some "TmpCol went missing?!") := by
      rw [scrub, if_neg (by rw [hex2]; simp)]
      simp only [hc, hrel1, htmp]
    rw [hres]
    refine ⟨rfl, fun t d hmem => ?_, fun i c hmem => ?_, fun i a b hmem => ?_⟩
    · rcases List.mem_append.mp hmem with hm2 | hm2
      · rcases createTrace_kinds env2 _ _ hm2 with ⟨i2, h⟩ | ⟨i2, h⟩ |
          ⟨i2, p2, h⟩ | ⟨i2, h⟩ <;> simp at h
      · simp at hm2
    · rcases List.mem_append.mp hmem with hm2 | hm2
      · rcases createTrace_kinds env2 _ _ hm2 with ⟨i2, h⟩ | ⟨i2, h⟩ |
          ⟨i2, p2, h⟩ | ⟨i2, h⟩ <;> simp at h
      · simp at hm2
    · rcases List.mem_append.mp hmem with hm2 | hm2
      · rcases createTrace_kinds env2 _ _ hm2 with ⟨i2, h⟩ | ⟨i2, h⟩ |
          ⟨i2, p2, h⟩ | ⟨i2, h⟩ <;> simp at h
      · simp at hm2

/-- Environment for the C7 witness, Index part: routing identity lookup
returns -1 after the reload. -/
def envC7wIdx : IndexEnv Nat Nat where
  nProcs := 1
  openErr := fun _ => none
  colExists := fun _ => true
  bpIdxErr := fun _ => none
  closeErr := fun _ => none
  reloadErr := none
  htID := -1
  docCountRes := Except.ok 0
  pageRes := fun _ => Except.ok []
  getIn := fun _ => []
  strHash := fun v => v
  sendErr := fun _ _ _ => none

/-- Environment for the C7 witness, Scrub part: the temporary collection
is missing from the reloaded cache. -/
def envC7wScrub : ScrubEnv Nat where
  nProcs := 1
  colExists := true
  indexPaths := [["a"]]
  open1Err := fun _ => none
  close1Err := fun _ => none
  createErr := fun _ => none
  bpIdxErr := fun _ _ => none
  reload1Err := none
  tmpColID := none
  docCountRes := Except.ok 0
  pageRes := fun _ => Except.ok []
  insertErr := fun _ _ => none
  open2Err := fun _ => none
  close2Err := fun _ => none
  dropErr := fun _ => none
  renameErr := fun _ => none
  reload2Err := none

/-- Witness for C7 at concrete environments. -/
theorem C7_witness :
    ((indexOp envC7wIdx "col" ["f"]).2 = some "New hash table is missing?!" ∧
      ∀ s h k d, Ev.htPut s h k d ∉ (indexOp envC7wIdx "col" ["f"]).1) ∧
    ((scrub envC7wScrub "c2" 9).2 = some "TmpCol went missing?!" ∧
      (∀ t d, Ev.insertRec t d ∉ (scrub envC7wScrub "c2" 9).1) ∧
      (∀ i c, Ev.dropCol i c ∉ (scrub envC7wScrub "c2" 9).1) ∧
      (∀ i a b, Ev.renameCol i a b ∉ (scrub envC7wScrub "c2" 9).1)) :=
  C7_reload_consistency envC7wIdx "col" ["f"] envC7wScrub "c2" 9
    (by decide) rfl rfl rfl (by decide) rfl rfl

/-- C4: both `Index` and `Scrub` page through the collection via
`pagedScan` over `totalPages docCount = docCount / 10000 + 1` pages
(integer division — see the `totalPages` calls in `scrub` and
`indexOp`), fetching pages `0, 1, …, totalPages - 1` in order; for a
collection with exactly 25000 documents that is exactly 3 pages; and
whenever the external pager delivers every document id exactly once
across those pages, the scan touches every document id exactly once. -/
theorem C4_pagination {Doc : Type} (pageRes : Nat → Except Err (List (Nat × Doc)))
    (perDoc : Nat → Doc → List Ev × Option Err) (dc : Nat)
    (pageOk : Nat → List (Nat × Doc))
    (hpages : ∀ p, p < totalPages dc → pageRes p = Except.ok (pageOk p))
    (hdocs : ∀ docID doc, (perDoc docID doc).2 = none) :
    totalPages 25000 = 3 ∧
    (pagedScan pageRes perDoc (totalPages dc)).fetched =
      List.range (totalPages dc) ∧
    (pagedScan pageRes perDoc (totalPages dc)).visited =
      (List.range (totalPages dc)).flatMap
        (fun p => (pageOk p).map (fun d => (p, d.1))) ∧
    (pagedScan pageRes perDoc (totalPages dc)).err = none ∧
    ∀ docID,
      ((List.range (totalPages dc)).flatMap
        (fun p => (pageOk p).map (fun d => d.1))).count docID = 1 →
      ((pagedScan pageRes perDoc (totalPages dc)).visited.map
        (fun v => v.2)).count docID = 1 := by
  have hscan := pageLoopGo_noerr pageRes perDoc pageOk (totalPages dc) 0
    (fun p h1 h2 => hpages p (by omega)) hdocs
  have hm : pagedScan pageRes perDoc (totalPages dc) =
      ⟨(List.range (totalPages dc)).flatMap
         (fun p => (pageOk p).flatMap (fun d => (perDoc d.1 d.2).1)),
       List.range (totalPages dc),
       (List.range (totalPages dc)).flatMap
         (fun p => (pageOk p).map (fun d => (p, d.1))),
       none⟩ := by
    rw [pagedScan, hscan, ← List.range_eq_range']
  refine ⟨rfl, by rw [hm], by rw [hm], by rw [hm], fun docID hcount => ?_⟩
  rw [hm]
  have hmaps : (((List.range (totalPages dc)).flatMap
      (fun p => (pageOk p).map (fun d => (p, d.1)))).map (fun v => v.2)) =
      (List.range (totalPages dc)).flatMap
        (fun p => (pageOk p).map (fun d => d.1)) := by
    rw [List.map_flatMap]
    refine List.flatMap_congr (fun p _ => ?_)
    rw [List.map_map]
    rfl
  rw [hmaps]
  exact hcount

/-- Witness for C4 at a concrete pager: 25000 documents, pages 0, 1, 2
holding document ids 0, 1, 2 respectively. -/
theorem C4_witness :
    totalPages 25000 = 3 ∧
    (pagedScan (fun p => Except.ok [(p, ())]) (fun _ _ => ([], none))
      (totalPages 25000)).fetched = List.range (totalPages 25000) ∧
    (pagedScan (fun p => Except.ok [(p, ())]) (fun _ _ => ([], none))
      (totalPages 25000)).visited =
      (List.range (totalPages 25000)).flatMap
        (fun p => ([(p, ())] : List (Nat × Unit)).map (fun d => (p, d.1))) ∧
    (pagedScan (fun p => Except.ok [(p, ())]) (fun _ _ => ([], none))
      (totalPages 25000)).err = none ∧
    ∀ docID,
      ((List.range (totalPages 25000)).flatMap
        (fun p => ([(p, ())] : List (Nat × Unit)).map (fun d => d.1))).count
          docID = 1 →
      ((pagedScan (fun p => Except.ok [(p, ())]) (fun _ _ => ([], none))
        (totalPages 25000)).visited.map (fun v => v.2)).count docID = 1 :=
  C4_pagination (fun p => Except.ok [(p, ())]) (fun _ _ => ([], none)) 25000
    (fun p => [(p, ())]) (fun _ _ => rfl) (fun _ _ => rfl)

/-! Part: Unindex lemmas -/

theorem unindexGo_noerr (env : UnindexEnv) (colName : String)
    (idxPath : List String) :
    ∀ (rem i : Nat),
      (∀ j, i ≤ j → j < i + rem →
        env.openErr j = none ∧ env.removeErr j = none ∧ env.closeErr j = none) →
      unindexGo env colName idxPath i rem =
        ((List.range' i rem).flatMap (fun j =>
          if env.colExists j then
            [Ev.openShard j, Ev.removeIdx j colName idxPath, Ev.closeShard j]
          else [Ev.openShard j]), none) := by
  intro rem
  induction rem with
  | zero => intro i _; rfl
  | succ rem ih =>
    intro i h
    obtain ⟨ho, hr, hc⟩ := h i (Nat.le_refl i) (by omega)
    have ihr := ih (i + 1) (fun j hj1 hj2 => h j (by omega) (by omega))
    cases hx : env.colExists i with
    | false =>
      rw [unindexGo, ho, hx]
      simp only [if_pos rfl, ihr]
      simp [List.range', hx]
    | true =>
      rw [unindexGo, ho, hx]
      simp only [Bool.true_eq_false, if_false, hr, hc, ihr]
      simp [List.range', hx]

/-- In any `Unindex` run, a shard on which the collection is absent
never gets a `Close`: its skip branch jumps straight to the next
shard. -/
theorem unindexGo_no_close (env : UnindexEnv) (colName : String)
    (idxPath : List String) (i : Nat) (hex : env.colExists i = false) :
    ∀ (rem i0 : Nat), Ev.closeShard i ∉ (unindexGo env colName idxPath i0 rem).1 := by
  intro rem
  induction rem with
  | zero => intro i0; simp [unindexGo]
  | succ rem ih =>
    intro i0
    rw [unindexGo]
    cases ho : env.openErr i0 with
    | some e => simp
    | none =>
      cases hx : env.colExists i0 with
      | false =>
        simp only [if_pos rfl]
        intro hmem
        rcases List.mem_cons.mp hmem with h | h
        · simp at h
        · exact ih (i0 + 1) h
      | true =>
        simp only [Bool.true_eq_false, if_false]
        have hne : i ≠ i0 := by
          intro hEq
          rw [hEq, hx] at hex
          simp at hex
        cases hr : env.removeErr i0 with
        | some e => simp
        | none =>
          cases hc : env.closeErr i0 with
          | some e => simp
          | none =>
            intro hmem
            rcases List.mem_cons.mp hmem with h | h
            · simp at h
            rcases List.mem_cons.mp h with h2 | h2
            · simp at h2
            rcases List.mem_cons.mp h2 with h3 | h3
            · exact hne (by simpa using h3)
            · exact ih (i0 + 1) h3

/-- C5: with no open, removal or close failure, `Unindex` processes
every shard in index order 0..N-1; a shard where the collection is
absent is skipped (only its open happens) and processing continues with
the following shards instead of aborting; a shard where it is present
gets the index removal followed by the close; and no schema reload is
performed (no `reloadEv` appears). -/
theorem C5_unindex_skip (env : UnindexEnv) (colName : String)
    (idxPath : List String)
    (h : ∀ j, j < env.nProcs →
      env.openErr j = none ∧ env.removeErr j = none ∧ env.closeErr j = none) :
    unindexOp env colName idxPath =
      ((List.range env.nProcs).flatMap (fun j =>
        if env.colExists j then
          [Ev.openShard j, Ev.removeIdx j colName idxPath, Ev.closeShard j]
        else [Ev.openShard j]), none) ∧
    Ev.reloadEv ∉ (unindexOp env colName idxPath).1 := by
  have hres : unindexOp env colName idxPath =
      ((List.range env.nProcs).flatMap (fun j =>
        if env.colExists j then
          [Ev.openShard j, Ev.removeIdx j colName idxPath, Ev.closeShard j]
        else [Ev.openShard j]), none) := by
    rw [unindexOp, unindexGo_noerr env colName idxPath env.nProcs 0
      (fun j hj1 hj2 => h j (by omega)), ← List.range_eq_range']
  refine ⟨hres, ?_⟩
  have h1 : (unindexOp env colName idxPath).1 =
      (List.range env.nProcs).flatMap (fun j =>
        if env.colExists j then
          [Ev.openShard j, Ev.removeIdx j colName idxPath, Ev.closeShard j]
        else [Ev.openShard j]) := congrArg Prod.fst hres
  rw [h1]
  intro hmem
  rw [List.mem_flatMap] at hmem
  obtain ⟨j, -, hj⟩ := hmem
  cases hx : env.colExists j <;> simp [hx] at hj

/-- Environment for the C5 and C10 witnesses: three shards, the
collection absent from shard 1, all calls succeeding. -/
def envC5w : UnindexEnv where
  nProcs := 3
  openErr := fun _ => none
  colExists := fun i => i != 1
  removeErr := fun _ => none
  closeErr := fun _ => none

/-- Witness for C5 at a concrete environment. -/
theorem C5_witness :
    unindexOp envC5w "col" ["f"] =
      ((List.range envC5w.nProcs).flatMap (fun j =>
        if envC5w.colExists j then
          [Ev.openShard j, Ev.removeIdx j "col" ["f"], Ev.closeShard j]
        else [Ev.openShard j]), none) ∧
    Ev.reloadEv ∉ (unindexOp envC5w "col" ["f"]).1 :=
  C5_unindex_skip envC5w "col" ["f"] (by decide)

/-- C10: on a shard `i` where `Unindex` takes its skip branch (the
collection is absent there), the opened store handle is never closed:
under error-free processing shard `i` is opened yet no `closeShard i`
ever appears in the trace — and more generally, in any `Unindex` run
whatsoever, a shard whose collection is absent never receives a
close. -/
theorem C10_unindex_leaks_handle (env : UnindexEnv) (colName : String)
    (idxPath : List String) (i : Nat)
    (hex : env.colExists i = false) (hi : i < env.nProcs)
    (h : ∀ j, j < env.nProcs →
      env.openErr j = none ∧ env.removeErr j = none ∧ env.closeErr j = none) :
    Ev.openShard i ∈ (unindexOp env colName idxPath).1 ∧
    Ev.closeShard i ∉ (unindexOp env colName idxPath).1 ∧
    (∀ env2 : UnindexEnv, env2.colExists i = false →
      Ev.closeShard i ∉ (unindexOp env2 colName idxPath).1) := by
  refine ⟨?_, unindexGo_no_close env colName idxPath i hex env.nProcs 0,
    fun env2 hex2 => unindexGo_no_close env2 colName idxPath i hex2 env2.nProcs 0⟩
  have hres := unindexGo_noerr env colName idxPath env.nProcs 0
    (fun j hj1 hj2 => h j (by omega))
  have h1 : (unindexOp env colName idxPath).1 =
      (List.range' 0 env.nProcs).flatMap (fun j =>
        if env.colExists j then
          [Ev.openShard j, Ev.removeIdx j colName idxPath, Ev.closeShard j]
        else [Ev.openShard j]) := congrArg Prod.fst hres
  rw [h1, ← List.range_eq_range', List.mem_flatMap]
  exact ⟨i, List.mem_range.mpr hi, by simp [hex]⟩

/-- Witness for C10 at the same concrete environment as C5: shard 1 is
opened but never closed. -/
theorem C10_witness :
    Ev.openShard 1 ∈ (unindexOp envC5w "col" ["f"]).1 ∧
    Ev.closeShard 1 ∉ (unindexOp envC5w "col" ["f"]).1 ∧
    (∀ env2 : UnindexEnv, env2.colExists 1 = false →
      Ev.closeShard 1 ∉ (unindexOp env2 "col" ["f"]).1) :=
  C10_unindex_leaks_handle envC5w "col" ["f"] 1 rfl (by decide) (by decide)

/-- C8: the read accessors attempt a liveness ping whose failure is
logged (the returned flag) but never changes the returned view — the
cached view is still served; with the cache's map keys distinct,
`allCols` returns a lexicographically sorted, duplicate-free permutation
of the schema cache's collection-name set at the time of the call;
`allIndexesJointPaths` likewise returns a sorted, duplicate-free
permutation of the collection's joint-path set (or the collection-miss
error); and `allIndexes` returns exactly the joint paths of
`allIndexesJointPaths` split into segments, in the same order. -/
theorem C8_read_accessors (ping : Bool) (s : Schema) (sep colName : String)
    (hnodup : (s.colNameLookup.map Prod.fst).Nodup)
    (hpaths : ∀ id2, (s.indexPathsJoint id2).Nodup) :
    ((allCols ping s).1 = (allCols true s).1 ∧
      (allCols ping s).2 = !ping ∧
      List.Sorted (· ≤ ·) (allCols ping s).1 ∧
      (allCols ping s).1.Nodup ∧
      List.Perm (allCols ping s).1 (s.colNameLookup.map Prod.fst)) ∧
    ((allIndexesJointPaths ping s colName).1 =
        (allIndexesJointPaths true s colName).1 ∧
      (allIndexesJointPaths ping s colName).2 = !ping ∧
      (∀ ps, (allIndexesJointPaths ping s colName).1 = Except.ok ps →
        List.Sorted (· ≤ ·) ps ∧ ps.Nodup ∧
        ∃ id2, s.colNameLookup.lookup colName = some id2 ∧
          List.Perm ps (s.indexPathsJoint id2)) ∧
      (s.colNameLookup.lookup colName = none →
        (allIndexesJointPaths ping s colName).1 =
          Except.error ("Collection " ++ colName ++ " does not exist"))) ∧
    (allIndexes ping s sep colName).1 =
      (allIndexesJointPaths ping s colName).1.map
        (fun ps => ps.map (fun p => p.splitOn sep)) := by
  refine ⟨⟨rfl, rfl, List.sorted_insertionSort _ _,
    ((List.perm_insertionSort _ _).nodup_iff).mpr hnodup,
    List.perm_insertionSort _ _⟩, ⟨?_, ?_, ?_, ?_⟩, rfl⟩
  · cases hl : s.colNameLookup.lookup colName <;>
      simp only [allIndexesJointPaths, hl]
  · cases hl : s.colNameLookup.lookup colName <;>
      simp only [allIndexesJointPaths, hl]
  · intro ps hps
    cases hl : s.colNameLookup.lookup colName with
    | none => rw [allIndexesJointPaths, hl] at hps; simp at hps
    | some id2 =>
      rw [allIndexesJointPaths, hl] at hps
      simp only [Except.ok.injEq] at hps
      subst hps
      exact ⟨List.sorted_insertionSort _ _,
        ((List.perm_insertionSort _ _).nodup_iff).mpr (hpaths id2),
        id2, rfl, List.perm_insertionSort _ _⟩
  · intro hl
    rw [allIndexesJointPaths, hl]

/-- Schema for the C8 witness. -/
def schemaC8w : Schema where
  colNameLookup := [("b", 0), ("a", 1)]
  indexPathsJoint := fun _ => ["f!g", "e"]

/-- Witness for C8 at a concrete schema and a failing ping. -/
theorem C8_witness :
    ((allCols false schemaC8w).1 = (allCols true schemaC8w).1 ∧
      (allCols false schemaC8w).2 = !false ∧
      List.Sorted (· ≤ ·) (allCols false schemaC8w).1 ∧
      (allCols false schemaC8w).1.Nodup ∧
      List.Perm (allCols false schemaC8w).1
        (schemaC8w.colNameLookup.map Prod.fst)) ∧
    ((allIndexesJointPaths false schemaC8w "a").1 =
        (allIndexesJointPaths true schemaC8w "a").1 ∧
      (allIndexesJointPaths false schemaC8w "a").2 = !false ∧
      (∀ ps, (allIndexesJointPaths false schemaC8w "a").1 = Except.ok ps →
        List.Sorted (· ≤ ·) ps ∧ ps.Nodup ∧
        ∃ id2, schemaC8w.colNameLookup.lookup "a" = some id2 ∧
          List.Perm ps (schemaC8w.indexPathsJoint id2)) ∧
      (schemaC8w.colNameLookup.lookup "a" = none →
        (allIndexesJointPaths false schemaC8w "a").1 =
          Except.error ("Collection " ++ "a" ++ " does not exist"))) ∧
    (allIndexes false schemaC8w "!" "a").1 =
      (allIndexesJointPaths false schemaC8w "a").1.map
        (fun ps => ps.map (fun p => p.splitOn "!")) :=
  C8_read_accessors false schemaC8w "!" "a" (by decide)
    (fun _ => by show (["f!g", "e"] : List String).Nodup; decide)

/-- Environment refuting C1 as stated: a single shard whose per-shard
action (think `Truncate`) succeeds, and whose `Close` then fails. -/
def envC1cex : ShardEnv Nat where
  openErr := fun _ => none
  actErr := fun _ => none
  act := fun _ s => s + 1
  closeErr := fun _ => some "close failed"

/-- C1 counterexample: with one shard whose action succeeds but whose
`Close` fails, `forAllDBsDo` returns the close error, yet shard 0 — the
shard *at* the failure point — retains the applied change (state `1`,
not the initial `0`), refuting "shards at/after it are untouched". -/
theorem C1_counterexample :
    (forAllDBsDo envC1cex 1 (fun _ => 0)).2 = some "close failed" ∧
    (forAllDBsDo envC1cex 1 (fun _ => 0)).1 0 = 1 :=
  ⟨rfl, rfl⟩

/-- Environment for the C1 witness: three shards, the action fails on
shard 1, everything else succeeds. -/
def envC1w : ShardEnv Nat where
  openErr := fun _ => none
  actErr := fun i => if i = 1 then some "act failed" else none
  act := fun _ s => s + 1
  closeErr := fun _ => none

/-- Witness for C1: with three shards and the action failing on shard 1,
the run returns shard 1's error, shard 0 retains the change and shards 1
and 2 are untouched. -/
theorem C1_witness :
    (forAllDBsDo envC1w 3 (fun _ => 0)).2 = some "act failed" ∧
    (forAllDBsDo envC1w 3 (fun _ => 0)).1 0 = 1 ∧
    (forAllDBsDo envC1w 3 (fun _ => 0)).1 1 = 0 ∧
    (forAllDBsDo envC1w 3 (fun _ => 0)).1 2 = 0 := by
  have h := (C1_forAllDBsDo_characterization envC1w 3 (fun _ => 0)).2 1 (by decide)
  obtain ⟨-, -, -, herr, -, hst⟩ := h
  exact ⟨herr.trans (by decide), (hst 0).trans (by decide),
    (hst 1).trans (by decide), (hst 2).trans (by decide)⟩

/-- Environment for the C9 witness: two shards, one snapshotted index
path, create phase succeeding, then the temporary collection missing
from the reloaded cache. -/
def envC9w : ScrubEnv Nat where
  nProcs := 2
  colExists := true
  indexPaths := [["a"]]
  open1Err := fun _ => none
  close1Err := fun _ => none
  createErr := fun _ => none
  bpIdxErr := fun _ _ => none
  reload1Err := none
  tmpColID := none
  docCountRes := Except.ok 0
  pageRes := fun _ => Except.ok []
  insertErr := fun _ _ => none
  open2Err := fun _ => none
  close2Err := fun _ => none
  dropErr := fun _ => none
  renameErr := fun _ => none
  reload2Err := none

/-- Witness for C9 at a concrete environment. -/
theorem C9_witness :
    (scrub envC9w "c" 5).2.isSome = true ∧
    (∀ i, i < envC9w.nProcs →
      Ev.createCol i (scrubTmpName "c" 5) ∈ (scrub envC9w "c" 5).1 ∧
      ∀ p ∈ envC9w.indexPaths,
        Ev.bpIndexEv i (scrubTmpName "c" 5) p ∈ (scrub envC9w "c" 5).1) ∧
    (∀ i c, Ev.dropCol i c ∉ (scrub envC9w "c" 5).1) ∧
    (∀ i a b, Ev.renameCol i a b ∉ (scrub envC9w "c" 5).1) ∧
    scrubTmpName "c" 5 ≠ "c" :=
  C9_scrub_midfail envC9w "c" 5 rfl (by decide) (Or.inr (Or.inl rfl))

end Tiedot
